import Mathlib

/-!
Shallow embedding of the SyncStream server core (src/server/index.js).

The backing store (Redis) is modelled as a record of total functions from
keys to values:
  * `room:{roomId}` hashes become `rooms : String → Option Room`;
  * `room:{roomId}:participants` sets become `members : String → List String`
    (a Redis set read, `smembers`/`scard`, is modelled through `List.dedup`
    so that reads have set semantics on every state);
  * `user:{roomId}:{userId}` hashes become `users : String → String → Option UserRec`;
  * `room:{roomId}:messages` lists become `messages : String → List Message`;
  * per-key TTL (`expire`) becomes `ttl : String → Option Nat` (seconds).

Numeric hash fields are stored as strings in Redis and parsed back
(`parseInt`/`parseFloat`, comparison with the string true); the round trip is modelled as the
identity on `Nat`/`Bool`.  Timestamps (`Date.now()`) and playback offsets are
passed in as explicit `Nat` parameters, and `uuidv4()` results as explicit
`String` parameters.  Socket broadcasts are modelled as a list of `Emit`
values returned next to the new state: `io.to(room).emit` targets the whole
room (`EmitTarget.roomAll`), `socket.to(room).emit` targets the room minus
the sender (`EmitTarget.roomExceptSender`), and `socket.emit` targets the
sender alone (`EmitTarget.sender`).
-/

namespace SyncStream

/-- JavaScript `String.prototype.trim`: strip leading and trailing
whitespace. -/
def jsTrim (s : String) : String :=
  ⟨(((s.data.dropWhile Char.isWhitespace).reverse).dropWhile Char.isWhitespace).reverse⟩

/-- Configuration constants from `config.room` in src/server/index.js. -/
def maxParticipants : Nat := 50

/-- Idle timeout in milliseconds (`config.room.idleTimeout = 3600000`). -/
def idleTimeout : Nat := 3600000

/-- Room record, the `room:{roomId}` Redis hash. -/
structure Room where
  id : String
  name : String
  hostId : String
  createdAt : Nat
  mediaType : String
  mediaUrl : String
  isPlaying : Bool
  currentTime : Nat
  lastSync : Nat
deriving DecidableEq

/-- Per-participant record, the `user:{roomId}:{userId}` Redis hash. -/
structure UserRec where
  id : String
  name : String
  avatar : String
  socketId : String
  joinedAt : Nat
  isHost : Bool
deriving DecidableEq

/-- A chat message as stored in `room:{roomId}:messages` (JSON-serialised in
the source; modelled structurally).  `mtype` is "user" or "system"; system
messages leave the author fields empty. -/
structure Message where
  id : String
  mtype : String
  userId : String
  userName : String
  userAvatar : String
  text : String
  timestamp : Nat
deriving DecidableEq

/-- The whole backing-store state. -/
structure ServerState where
  rooms : String → Option Room
  members : String → List String
  users : String → String → Option UserRec
  messages : String → List Message
  ttl : String → Option Nat

/-- Pointwise update of a one-key map. -/
def upd {α : Type} (f : String → α) (k : String) (v : α) : String → α :=
  fun x => if x = k then v else f x

/-- Pointwise update of the two-key user map. -/
def upd2 {α : Type} (f : String → String → α) (k1 k2 : String) (v : α) :
    String → String → α :=
  fun x y => if x = k1 ∧ y = k2 then v else f x y

/-- `smembers`: Redis sets hold each element once, so reads deduplicate. -/
def smembers (st : ServerState) (roomId : String) : List String :=
  (st.members roomId).dedup

/-- `scard`: cardinality of the membership set. -/
def scard (st : ServerState) (roomId : String) : Nat :=
  (smembers st roomId).length

/-- `sadd`: add one element to the membership set (no-op when present). -/
def sadd (st : ServerState) (roomId uid : String) : ServerState :=
  let l := st.members roomId
  let l2 := if uid ∈ l then l else l ++ [uid]
  { st with members := upd st.members roomId l2 }

/-- `srem`: remove one element from the membership set. -/
def srem (st : ServerState) (roomId uid : String) : ServerState :=
  let l2 := (st.members roomId).filter (fun x => x ≠ uid)
  { st with members := upd st.members roomId l2 }

/-- `ltrim key -100 -1`: keep only the last 100 entries of a list. -/
def ltrimLast100 (l : List Message) : List Message :=
  l.drop (l.length - 100)

/-- `getRoomData`: `hgetall` plus the `!roomData.id` guard — a hash whose
`id` field is empty reads as absent. -/
def getRoomData (st : ServerState) (roomId : String) : Option Room :=
  match st.rooms roomId with
  | some r => if r.id = "" then none else some r
  | none => none

/-- The per-member lookup inside `getRoomParticipants`: `hgetall` plus the
`userData && userData.id` guard. -/
def lookupUser (st : ServerState) (roomId uid : String) : Option UserRec :=
  match st.users roomId uid with
  | some u => if u.id = "" then none else some u
  | none => none

/-- The comparator `(a, b) => a.joinedAt - b.joinedAt` as an order. -/
def joinLE (a b : UserRec) : Prop := a.joinedAt ≤ b.joinedAt

instance : DecidableRel joinLE := fun a b => Nat.decLe a.joinedAt b.joinedAt

instance : IsTotal UserRec joinLE := ⟨fun a b => Nat.le_total a.joinedAt b.joinedAt⟩

instance : IsTrans UserRec joinLE := ⟨fun _ _ _ => Nat.le_trans⟩

/-- `.sort((a, b) => a.joinedAt - b.joinedAt)`. -/
def sortByJoinedAt (l : List UserRec) : List UserRec :=
  l.insertionSort joinLE

/-- `getRoomParticipants`: collect the member ids whose user record exists,
then sort by `joinedAt` ascending. -/
def getRoomParticipants (st : ServerState) (roomId : String) : List UserRec :=
  sortByJoinedAt ((smembers st roomId).filterMap (lookupUser st roomId))

/-- `deleteRoom`: deletes the user records of the current members, the room
hash, the membership set and the message list. -/
def deleteRoom (st : ServerState) (roomId : String) : ServerState :=
  let ids := smembers st roomId
  { rooms := upd st.rooms roomId none
    members := upd st.members roomId []
    users := fun r u => if r = roomId ∧ u ∈ ids then none else st.users r u
    messages := upd st.messages roomId []
    ttl := upd st.ttl roomId none }

/-- Update the room hash in place when the key holds a full record.  (A
partial `hmset` on an absent key would create a hash without an `id` field,
which every read in the source discards via `getRoomData`; such invisible
partial hashes are not tracked.) -/
def updRoom (st : ServerState) (roomId : String) (f : Room → Room) : ServerState :=
  match st.rooms roomId with
  | some r => { st with rooms := upd st.rooms roomId (some (f r)) }
  | none => st

/-- Broadcast targets of the socket layer. -/
inductive EmitTarget where
  | sender
  | roomExceptSender (roomId : String)
  | roomAll (roomId : String)
  | socket (socketId : String)
deriving DecidableEq

/-- Whether a broadcast target includes the connection that sent the
triggering event. -/
def targetIncludesSender : EmitTarget → Bool
  | .sender => true
  | .roomExceptSender _ => false
  | .roomAll _ => true
  | .socket _ => false

/-- Payloads of the outbound events the claims inspect. -/
inductive Payload where
  | error (msg : String)
  | roomJoined
  | participantJoined
  | participantLeft (userId userName : String)
  | hostChanged (newHostId newHostName : String)
  | chatMsg (m : Message)
  | mediaChanged (mediaType mediaUrl : String)
  | playbackSync (isPlaying : Bool) (time : Nat) (syncedBy : String) (ts : Nat)
  | seekSync (time : Nat) (seekedBy : String) (ts : Nat)
  | syncTime (time : Nat)
  | roomUsers (ps : List UserRec)
  | userJoined
deriving DecidableEq

/-- One `emit` call: target, event name, payload. -/
structure Emit where
  target : EmitTarget
  event : String
  payload : Payload
deriving DecidableEq

/-- The per-connection `currentUser` closure variable: the fields the
handlers read from it. -/
structure CUser where
  id : String
  name : String
  avatar : String
deriving DecidableEq

/-! ### REST endpoints -/

/-- Names bound in the scope of the `POST /api/room/create` handler body
(its parameters, destructured body fields and locals) together with the
module-level bindings of src/server/index.js.  The identifier `odaId`,
which the handler uses as the value of `hostId`, is not among them: it only
occurs as a loop-local variable inside `getRoomParticipants` and
`deleteRoom`. -/
def createHandlerScope : List String :=
  ["req", "res", "userId", "userName", "userAvatar", "roomId", "attempts",
   "exists", "now", "express", "http", "Server", "Redis", "cors", "helmet",
   "rateLimit", "uuidv4", "config", "app", "server", "redis", "redisPub",
   "redisSub", "io", "limiter", "generateRoomCode", "getRoomData",
   "getRoomParticipants", "deleteRoom"]

/-- Resolution of a JavaScript identifier against the handler scope; an
unresolved identifier throws `ReferenceError`, which the surrounding
`try`/`catch` converts into a 500 response. -/
def scopeHas (x : String) : Bool := createHandlerScope.contains x

/-- Result of the `POST /api/room/create` handler. -/
inductive CreateResult where
  | badRequest
  | codeGenFailed
  | internalError
  | ok (roomId name : String) (createdAt : Nat)
deriving DecidableEq

/-- The room display name `userName + [apostrophe]ın Odası`. -/
def roomNameFor (userName : String) : String := userName ++ "\x27ın Odası"

/-- `POST /api/room/create`.  The collision-retry loop is collapsed to its
exit condition: `roomId` is the code produced by the loop, and a still-
occupied code stands for ten exhausted attempts.  The `hmset` argument
object evaluates the identifier `odaId` for its `hostId` field; resolution
is modelled by `scopeHas`. -/
def createRoom (st : ServerState) (userId userName : String)
    (roomId : String) (now : Nat) : ServerState × CreateResult :=
  if userId = "" ∨ userName = "" then (st, .badRequest)
  else if (st.rooms roomId).isSome then (st, .codeGenFailed)
  else if scopeHas "odaId" = true then
    -- never reached: `odaId` is unbound, so building the hash object throws
    let room : Room :=
      { id := roomId, name := roomNameFor userName, hostId := "odaId-value"
        createdAt := now, mediaType := "", mediaUrl := ""
        isPlaying := false, currentTime := 0, lastSync := now }
    ({ st with rooms := upd st.rooms roomId (some room)
               ttl := upd st.ttl roomId (some (idleTimeout / 1000)) },
     .ok roomId (roomNameFor userName) now)
  else (st, .internalError)

/-- `GET /api/room/:roomId`: the room record plus
`participantCount = participants.length` over the filtered listing. -/
def getRoomInfo (st : ServerState) (roomId : String) : Option (Room × Nat) :=
  match getRoomData st roomId with
  | some r => some (r, (getRoomParticipants st roomId).length)
  | none => none

/-- Response of `GET /api/room/:roomId/validate`. -/
structure ValidateResp where
  valid : Bool
  participantCount : Nat
  isFull : Bool
deriving DecidableEq

/-- `GET /api/room/:roomId/validate`: key-existence check plus `scard`. -/
def validateRoom (st : ServerState) (roomId : String) : ValidateResp :=
  if (st.rooms roomId).isSome then
    ⟨true, scard st roomId, decide (maxParticipants ≤ scard st roomId)⟩
  else ⟨false, 0, false⟩

/-! ### Socket handlers

Each handler takes the connection closure state (`croom`, `cuser` for the
`currentRoom` and `currentUser` variables) and returns the new store state,
the new closure state where the handler assigns it, and the list of emits. -/

/-- Payload of the `join_room` event. -/
structure JoinUser where
  id : String
  name : String
  avatar : String
deriving DecidableEq

/-- The `join_room` handler.  Field absence in the JSON payload is modelled
by the empty string (the falsy cases of the source guard). -/
def joinRoom (st : ServerState) (croom : Option String) (cuser : Option CUser)
    (roomId : String) (user : JoinUser) (sid : String) (now : Nat) :
    ServerState × Option String × Option CUser × List Emit :=
  if roomId = "" ∨ user.id = "" ∨ user.name = "" then
    (st, croom, cuser, [⟨.sender, "error", .error "Invalid join request"⟩])
  else
    match getRoomData st roomId with
    | none => (st, croom, cuser, [⟨.sender, "error", .error "Room not found"⟩])
    | some room =>
      if maxParticipants ≤ scard st roomId then
        (st, croom, cuser, [⟨.sender, "error", .error "Room is full"⟩])
      else
        let isHost := room.hostId = user.id
        let av := if user.avatar = "" then "🎬" else user.avatar
        let rec1 : UserRec :=
          { id := user.id, name := user.name, avatar := av, socketId := sid
            joinedAt := now, isHost := isHost }
        let st1 := { st with users := upd2 st.users roomId user.id (some rec1) }
        let st2 := sadd st1 roomId user.id
        let st3 := { st2 with ttl := upd st2.ttl roomId (some (idleTimeout / 1000)) }
        (st3, some roomId, some ⟨user.id, user.name, av⟩,
         [⟨.sender, "room_joined", .roomJoined⟩,
          ⟨.roomExceptSender roomId, "participant_joined", .participantJoined⟩])

/-- Payload of the `room:join` event; `isHost` is supplied by the client. -/
structure RJUser where
  id : String
  name : String
  avatar : String
  isHost : Bool
deriving DecidableEq

/-- The `room:join` handler: binds the connection, creates the room when the
key is absent, then adds the member and its record without any validation or
capacity check. -/
def roomJoin (st : ServerState) (_croom : Option String) (_cuser : Option CUser)
    (roomId : String) (user : RJUser) (sid : String) (now : Nat) :
    ServerState × Option String × Option CUser × List Emit :=
  let st1 :=
    if (st.rooms roomId).isSome then st
    else
      let room : Room :=
        { id := roomId
          name := if user.isHost then roomNameFor user.name else "Watch Party"
          hostId := if user.isHost then user.id else ""
          createdAt := now, mediaType := "", mediaUrl := ""
          isPlaying := false, currentTime := 0, lastSync := now }
      { st with rooms := upd st.rooms roomId (some room) }
  let st2 := sadd st1 roomId user.id
  let rec1 : UserRec :=
    { id := user.id, name := user.name, avatar := user.avatar, socketId := sid
      joinedAt := now, isHost := user.isHost }
  let st3 := { st2 with users := upd2 st2.users roomId user.id (some rec1) }
  let ps := getRoomParticipants st3 roomId
  let mediaEmit : List Emit :=
    match getRoomData st3 roomId with
    | some r =>
      if r.mediaUrl ≠ "" then
        [⟨.sender, "media:change", .mediaChanged r.mediaType r.mediaUrl⟩]
      else []
    | none => []
  (st3, some roomId, some ⟨user.id, user.name, user.avatar⟩,
   [⟨.sender, "room:users", .roomUsers ps⟩] ++ mediaEmit ++
   [⟨.roomExceptSender roomId, "room:user_joined", .userJoined⟩])

/-! ### Room-hash writes of the playback and media handlers

Each of the following functions is the single `hmset` of one handler,
applied to the current room record. -/

/-- The `hmset` of the `media_change` handler. -/
def mediaChangeHmset (mediaType mediaUrl : String) (now : Nat) (r : Room) : Room :=
  { r with mediaType := mediaType, mediaUrl := mediaUrl
           isPlaying := false, currentTime := 0, lastSync := now }

/-- The `hmset` of the `playback_state` handler. -/
def playbackStateHmset (isPlaying : Bool) (currentTime now : Nat) (r : Room) : Room :=
  { r with isPlaying := isPlaying, currentTime := currentTime, lastSync := now }

/-- The `hmset` of the `sync:play` handler. -/
def syncPlayHmset (time now : Nat) (r : Room) : Room :=
  { r with isPlaying := true, currentTime := time, lastSync := now }

/-- The `hmset` of the `sync:pause` handler. -/
def syncPauseHmset (time now : Nat) (r : Room) : Room :=
  { r with isPlaying := false, currentTime := time, lastSync := now }

/-- The `hmset` of the `sync:seek` handler. -/
def syncSeekHmset (time now : Nat) (r : Room) : Room :=
  { r with currentTime := time, lastSync := now }

/-- The `hmset` of the `media:change` handler: it writes `currentTime` and
`isPlaying` but, unlike every other playback write, not `lastSync`. -/
def mediaColonChangeHmset (mediaType mediaUrl : String) (r : Room) : Room :=
  { r with mediaType := mediaType, mediaUrl := mediaUrl
           currentTime := 0, isPlaying := false }

/-- The `hmset` of the `seek` handler. -/
def seekHmset (currentTime now : Nat) (r : Room) : Room :=
  { r with currentTime := currentTime, lastSync := now }

/-! ### Playback, media and chat socket handlers -/

/-- The `media_change` handler: resets playback state, broadcasts to the
whole room, and appends a system chat message with `rpush` but no `ltrim`. -/
def mediaChange (st : ServerState) (croom : Option String) (cuser : Option CUser)
    (mediaType mediaUrl : String) (now : Nat) (mid : String) :
    ServerState × List Emit :=
  match croom, cuser with
  | some rid, some u =>
    let st1 := updRoom st rid (mediaChangeHmset mediaType mediaUrl now)
    let sysMsg : Message :=
      { id := mid, mtype := "system", userId := "", userName := ""
        userAvatar := "", text := u.name ++ " yeni medya yükledi", timestamp := now }
    let st2 := { st1 with messages := upd st1.messages rid (st1.messages rid ++ [sysMsg]) }
    (st2, [⟨.roomAll rid, "media_changed", .mediaChanged mediaType mediaUrl⟩,
           ⟨.roomAll rid, "chat_message", .chatMsg sysMsg⟩])
  | _, _ => (st, [])

/-- The `playback_state` handler: one `hmset`, then a broadcast through
`io.to(currentRoom)` — the whole room, sender included. -/
def playbackState (st : ServerState) (croom : Option String) (cuser : Option CUser)
    (isPlaying : Bool) (currentTime now : Nat) : ServerState × List Emit :=
  match croom, cuser with
  | some rid, some u =>
    (updRoom st rid (playbackStateHmset isPlaying currentTime now),
     [⟨.roomAll rid, "playback_sync", .playbackSync isPlaying currentTime u.name now⟩])
  | _, _ => (st, [])

/-- The `sync:play` handler: one `hmset`, then `socket.to(currentRoom)` —
the room minus the sender. -/
def syncPlay (st : ServerState) (croom : Option String) (cuser : Option CUser)
    (time now : Nat) : ServerState × List Emit :=
  match croom, cuser with
  | some rid, some _ =>
    (updRoom st rid (syncPlayHmset time now),
     [⟨.roomExceptSender rid, "sync:play", .syncTime time⟩])
  | _, _ => (st, [])

/-- The `sync:pause` handler. -/
def syncPause (st : ServerState) (croom : Option String) (cuser : Option CUser)
    (time now : Nat) : ServerState × List Emit :=
  match croom, cuser with
  | some rid, some _ =>
    (updRoom st rid (syncPauseHmset time now),
     [⟨.roomExceptSender rid, "sync:pause", .syncTime time⟩])
  | _, _ => (st, [])

/-- The `sync:seek` handler. -/
def syncSeek (st : ServerState) (croom : Option String) (cuser : Option CUser)
    (time now : Nat) : ServerState × List Emit :=
  match croom, cuser with
  | some rid, some _ =>
    (updRoom st rid (syncSeekHmset time now),
     [⟨.roomExceptSender rid, "sync:seek", .syncTime time⟩])
  | _, _ => (st, [])

/-- The `media:change` handler: guarded only on a bound `currentRoom`, it
writes the room hash of `data.roomId` without `lastSync` and broadcasts to
the room minus the sender. -/
def mediaColonChange (st : ServerState) (croom : Option String)
    (roomId mediaType mediaUrl : String) : ServerState × List Emit :=
  match croom with
  | some _ =>
    (updRoom st roomId (mediaColonChangeHmset mediaType mediaUrl),
     [⟨.roomExceptSender roomId, "media:change", .mediaChanged mediaType mediaUrl⟩])
  | none => (st, [])

/-- The `seek` handler: one `hmset`, then a broadcast through
`io.to(currentRoom)` — the whole room, sender included. -/
def seek (st : ServerState) (croom : Option String) (cuser : Option CUser)
    (currentTime now : Nat) : ServerState × List Emit :=
  match croom, cuser with
  | some rid, some u =>
    (updRoom st rid (seekHmset currentTime now),
     [⟨.roomAll rid, "seek_sync", .seekSync currentTime u.name now⟩])
  | _, _ => (st, [])

/-- The `chat_message` handler: rejects text that is empty after trimming or
longer than 500 characters; otherwise builds a `user` message, `rpush`es it,
`ltrim`s the list to the last 100 entries, and broadcasts to the whole
room. -/
def chatMessage (st : ServerState) (croom : Option String) (cuser : Option CUser)
    (text : String) (now : Nat) (mid : String) : ServerState × List Emit :=
  match croom, cuser with
  | some rid, some u =>
    if jsTrim text = "" then (st, [])
    else if 500 < text.length then (st, [])
    else
      let msg : Message :=
        { id := mid, mtype := "user", userId := u.id, userName := u.name
          userAvatar := u.avatar, text := jsTrim text, timestamp := now }
      let st1 := { st with messages := upd st.messages rid (ltrimLast100 (st.messages rid ++ [msg])) }
      (st1, [⟨.roomAll rid, "chat_message", .chatMsg msg⟩])
  | _, _ => (st, [])

/-- The `chat:message` handler: guarded only on a bound `currentRoom`; it
broadcasts and stores the client-supplied message object with no validation
at all, then `ltrim`s to the last 100 entries. -/
def chatColonMessage (st : ServerState) (croom : Option String)
    (roomId : String) (m : Message) : ServerState × List Emit :=
  match croom with
  | some _ =>
    let st1 := { st with messages := upd st.messages roomId (ltrimLast100 (st.messages roomId ++ [m])) }
    (st1, [⟨.roomExceptSender roomId, "chat:message", .chatMsg m⟩])
  | none => (st, [])

/-! ### Leave handling -/

/-- The first two store operations of `handleLeaveRoom`: remove the member
id from the set and delete the user record. -/
def leaveStep1 (st : ServerState) (roomId uid : String) : ServerState :=
  let st1 := srem st roomId uid
  { st1 with users := upd2 st1.users roomId uid none }

/-- `handleLeaveRoom`: remove the leaver; delete the room when it became
empty; otherwise notify, re-elect the host when the leaver held host
authority (the new host is `participants[0]` of the `joinedAt`-sorted
listing), and append a system chat message with `rpush` but no `ltrim`. -/
def handleLeaveRoom (st : ServerState) (croom : Option String) (cuser : Option CUser)
    (now : Nat) (mid : String) :
    ServerState × Option String × Option CUser × List Emit :=
  match croom, cuser with
  | some rid, some u =>
    let st1 := leaveStep1 st rid u.id
    if scard st1 rid = 0 then
      (deleteRoom st1 rid, none, none, [])
    else
      let leftEmit : Emit := ⟨.roomExceptSender rid, "participant_left", .participantLeft u.id u.name⟩
      let hostStep : ServerState × List Emit :=
        match getRoomData st1 rid with
        | some room =>
          if room.hostId = u.id then
            match (getRoomParticipants st1 rid).head? with
            | some newHost =>
              let st2 := updRoom st1 rid (fun r => { r with hostId := newHost.id })
              let hostRec := (st2.users rid newHost.id).map (fun v => { v with isHost := true })
              let st3 := { st2 with users := upd2 st2.users rid newHost.id hostRec }
              (st3, [⟨.roomAll rid, "host_changed", .hostChanged newHost.id newHost.name⟩])
            | none => (st1, [])
          else (st1, [])
        | none => (st1, [])
      let sysMsg : Message :=
        { id := mid, mtype := "system", userId := "", userName := ""
          userAvatar := "", text := u.name ++ " odadan ayrıldı", timestamp := now }
      let st4 := { hostStep.1 with messages := upd hostStep.1.messages rid (hostStep.1.messages rid ++ [sysMsg]) }
      (st4, none, none,
       [leftEmit] ++ hostStep.2 ++ [⟨.roomAll rid, "chat_message", .chatMsg sysMsg⟩])
  | _, _ => (st, croom, cuser, [])

/-! ### Periodic cleanup -/

/-- The key filter of the cleanup sweep: the regular expression
`room:([A-Z0-9]\x7b6\x7d)` anchored on both sides, applied to the part after
the prefix. -/
def isRoomCodeKey (s : String) : Bool :=
  s.length = 6 &&
  s.toList.all (fun c => (decide ('A' ≤ c) && decide (c ≤ 'Z')) ||
                         (decide ('0' ≤ c) && decide (c ≤ '9')))

/-- Whether the sweep body deletes a given room: the room id matches the key
pattern, the room record reads back, the membership set is empty, and
`Date.now() - room.createdAt > idleTimeout`.  The `lastSync` field is not
consulted. -/
def sweepDeletes (st : ServerState) (now : Nat) (roomId : String) : Bool :=
  isRoomCodeKey roomId &&
  (match getRoomData st roomId with
   | some room => decide (scard st roomId = 0) && decide (idleTimeout < now - room.createdAt)
   | none => false)

/-- One run of the cleanup `setInterval` body over the scanned room ids. -/
def cleanupSweep (st : ServerState) (now : Nat) (roomIds : List String) : ServerState :=
  roomIds.foldl (fun s rid => if sweepDeletes s now rid then deleteRoom s rid else s) st

/-! ### Concrete states used to instantiate the theorems -/

/-- The state of a fresh store. -/
def emptyState : ServerState :=
  { rooms := fun _ => none, members := fun _ => [], users := fun _ _ => none
    messages := fun _ => [], ttl := fun _ => none }

/-- Fifty distinct member ids. -/
def ids50 : List String := (List.range 50).map (fun i => "u" ++ toString i)

/-- A room record at capacity. -/
def fullRoom : Room :=
  { id := "ROOMAA", name := "n", hostId := "u0", createdAt := 0, mediaType := ""
    mediaUrl := "", isPlaying := false, currentTime := 0, lastSync := 0 }

/-- A store holding one room with fifty members. -/
def fullState : ServerState :=
  { rooms := fun r => if r = "ROOMAA" then some fullRoom else none
    members := fun r => if r = "ROOMAA" then ids50 else []
    users := fun _ _ => none, messages := fun _ => [], ttl := fun _ => none }

/-- Room for the host-reelection scenario. -/
def c3Room : Room :=
  { id := "RM", name := "n", hostId := "h", createdAt := 0, mediaType := ""
    mediaUrl := "", isPlaying := false, currentTime := 0, lastSync := 0 }

/-- The departing host connection. -/
def c3Leaver : CUser := { id := "h", name := "Hana", avatar := "" }

/-- The earliest remaining joiner, due to become host. -/
def c3NewHost : UserRec :=
  { id := "b", name := "Bob", avatar := "", socketId := "s2", joinedAt := 20
    isHost := false }

/-- The later remaining joiner. -/
def c3Later : UserRec :=
  { id := "c", name := "Cleo", avatar := "", socketId := "s3", joinedAt := 30
    isHost := false }

/-- The host record before leaving. -/
def c3HostRec : UserRec :=
  { id := "h", name := "Hana", avatar := "", socketId := "s1", joinedAt := 10
    isHost := true }

/-- Store with a host and two later joiners in room RM. -/
def c3State : ServerState :=
  { rooms := fun r => if r = "RM" then some c3Room else none
    members := fun r => if r = "RM" then ["h", "b", "c"] else []
    users := fun r uid =>
      if r = "RM" ∧ uid = "h" then some c3HostRec
      else if r = "RM" ∧ uid = "b" then some c3NewHost
      else if r = "RM" ∧ uid = "c" then some c3Later
      else none
    messages := fun _ => [], ttl := fun _ => none }

/-- A stored chat message used to fill a history to its cap. -/
def someMsg : Message :=
  { id := "m0", mtype := "user", userId := "a", userName := "A", userAvatar := ""
    text := "hello", timestamp := 1 }

/-- Store whose room RM already holds exactly 100 messages. -/
def st100 : ServerState :=
  { rooms := fun r => if r = "RM" then some c3Room else none
    members := fun _ => [], users := fun _ _ => none
    messages := fun r => if r = "RM" then List.replicate 100 someMsg else []
    ttl := fun _ => none }

/-- A message whose text is empty after trimming. -/
def blankMsg : Message :=
  { id := "mx", mtype := "user", userId := "a", userName := "A", userAvatar := ""
    text := " ", timestamp := 1 }

/-- A room state probed by the atomicity claims: playing at offset 7 with
`lastSync` 5. -/
def c7Room : Room :=
  { id := "RM", name := "n", hostId := "h", createdAt := 0, mediaType := ""
    mediaUrl := "", isPlaying := true, currentTime := 7, lastSync := 5 }

/-- An empty room created at time 0 whose last playback activity is recent. -/
def c9Room : Room :=
  { id := "ABCDEF", name := "n", hostId := "", createdAt := 0, mediaType := ""
    mediaUrl := "", isPlaying := false, currentTime := 3, lastSync := 7000000 }

/-- Store holding only the room of `c9Room`, with no members. -/
def c9State : ServerState :=
  { rooms := fun r => if r = "ABCDEF" then some c9Room else none
    members := fun _ => [], users := fun _ _ => none
    messages := fun _ => [], ttl := fun _ => none }

/-- Room for the undercount scenario. -/
def c10Room : Room :=
  { id := "RM", name := "n", hostId := "a", createdAt := 0, mediaType := ""
    mediaUrl := "", isPlaying := false, currentTime := 0, lastSync := 0 }

/-- The one member of RM that still has a user record. -/
def c10Rec : UserRec :=
  { id := "a", name := "A", avatar := "", socketId := "s1", joinedAt := 10
    isHost := true }

/-- Store whose membership set for RM holds an id without a user record. -/
def c10State : ServerState :=
  { rooms := fun r => if r = "RM" then some c10Room else none
    members := fun r => if r = "RM" then ["a", "ghost"] else []
    users := fun r uid => if r = "RM" ∧ uid = "a" then some c10Rec else none
    messages := fun _ => [], ttl := fun _ => none }

/-! ### Helper lemmas -/

/-- A list member sent to `none` by the function makes `filterMap` strictly
shorter than the list. -/
theorem length_filterMap_lt_of_mem_none {α β : Type} (f : α → Option β) :
    ∀ (l : List α) (x : α), x ∈ l → f x = none →
      (l.filterMap f).length < l.length := by
  intro l x hx hfx
  induction l with
  | nil => cases hx
  | cons a t ih =>
    rcases List.mem_cons.mp hx with h | h
    · subst h
      simp only [List.filterMap_cons, hfx]
      exact Nat.lt_succ_of_le (List.length_filterMap_le f t)
    · cases hfa : f a with
      | none =>
        simp only [List.filterMap_cons, hfa]
        exact Nat.lt_succ_of_lt (ih h)
      | some b =>
        simp only [List.filterMap_cons, hfa, List.length_cons]
        exact Nat.succ_lt_succ (ih h)

/-- The participant listing is never longer than the membership
cardinality. -/
theorem length_getRoomParticipants_le (st : ServerState) (rid : String) :
    (getRoomParticipants st rid).length ≤ scard st rid := by
  unfold getRoomParticipants sortByJoinedAt scard
  rw [List.length_insertionSort]
  exact List.length_filterMap_le _ _

/-- Unpacking a successful `getRoomData` read. -/
theorem getRoomData_eq_some {st : ServerState} {rid : String} {room : Room}
    (h : getRoomData st rid = some room) :
    st.rooms rid = some room ∧ room.id ≠ "" := by
  unfold getRoomData at h
  cases hr : st.rooms rid with
  | none => rw [hr] at h; cases h
  | some r =>
    rw [hr] at h
    by_cases hid : r.id = ""
    · simp [hid] at h
    · simp [hid] at h
      cases h
      exact ⟨rfl, hid⟩


/-- The participant listing is pairwise ordered by `joinedAt`. -/
theorem getRoomParticipants_pairwise (st : ServerState) (rid : String) :
    (getRoomParticipants st rid).Pairwise (fun a b => a.joinedAt ≤ b.joinedAt) := by
  unfold getRoomParticipants sortByJoinedAt
  exact List.sorted_insertionSort joinLE _

/-! ### Claim theorems -/

/-- Claim C1: the `POST /api/room/create` handler can never succeed.  For
every request whose body carries a non-empty `userId` and `userName`, once a
fresh room code is found the handler evaluates the unbound identifier
`odaId` for the `hostId` field of the room hash, the resulting
`ReferenceError` is caught, the response is the 500 internal error, and no
room record is written. -/
theorem create_room_always_500 (st : ServerState) (userId userName roomId : String)
    (now : Nat) (h1 : userId ≠ "") (h2 : userName ≠ "")
    (h3 : st.rooms roomId = none) :
    createRoom st userId userName roomId now = (st, .internalError) := by
  simp [createRoom, h1, h2, h3, scopeHas, createHandlerScope]

/-- Closed instance of `create_room_always_500` at a concrete request. -/
theorem create_room_always_500_witness :
    createRoom emptyState "u1" "Alice" "ABCDEF" 99 = (emptyState, .internalError) :=
  create_room_always_500 emptyState "u1" "Alice" "ABCDEF" 99 (by decide) (by decide) rfl

/-- Claim C4 (amended): on every store state, the participant listing is
ordered by `joinedAt` ascending.  (The exactly-one-host half of the original
claim fails: see the counterexample.) -/
theorem participants_sorted_by_joinedAt (st : ServerState) (rid : String) :
    (getRoomParticipants st rid).Pairwise (fun a b => a.joinedAt ≤ b.joinedAt) :=
  getRoomParticipants_pairwise st rid

/-- Claim C4 counterexample: a single `room:join` with a client-supplied
`isHost = false` leaves a non-empty room with zero participants whose
`isHost` flag is true, refuting the exactly-one-host invariant. -/
theorem one_host_invariant_fails :
    (getRoomParticipants
      (roomJoin emptyState none none "ROOM01" ⟨"a", "A", "x", false⟩ "s1" 5).1
      "ROOM01").length = 1 ∧
    ((getRoomParticipants
      (roomJoin emptyState none none "ROOM01" ⟨"a", "A", "x", false⟩ "s1" 5).1
      "ROOM01").countP (fun p => p.isHost)) = 0 := by
  constructor
  · decide
  · decide

/-- Claim C6 (amended): on the `chat_message` path, text that is empty after
trimming or longer than 500 characters is rejected: the store is unchanged
and nothing is broadcast.  (The `chat:message` path performs no validation:
see the counterexample.) -/
theorem chat_message_rejects_invalid (st : ServerState) (croom : Option String)
    (cuser : Option CUser) (text : String) (now : Nat) (mid : String)
    (h : jsTrim text = "" ∨ 500 < text.length) :
    chatMessage st croom cuser text now mid = (st, []) := by
  cases croom with
  | none => rfl
  | some rid =>
    cases cuser with
    | none => rfl
    | some u =>
      by_cases h2 : jsTrim text = ""
      · simp [chatMessage, h2]
      · rcases h with h | h
        · exact absurd h h2
        · simp [chatMessage, h2, h]

/-- Closed instance of `chat_message_rejects_invalid` on whitespace text. -/
theorem chat_message_rejects_invalid_witness :
    chatMessage emptyState (some "R") (some ⟨"a", "A", ""⟩) " " 5 "m1" =
      (emptyState, []) :=
  chat_message_rejects_invalid emptyState (some "R") (some ⟨"a", "A", ""⟩) " " 5 "m1"
    (Or.inl (by decide))

/-- Claim C6 counterexample: the `chat:message` handler persists and
broadcasts a message whose text is empty after trimming. -/
theorem chat_colon_message_skips_validation :
    jsTrim blankMsg.text = "" ∧
    (chatColonMessage emptyState (some "R") "R" blankMsg).1.messages "R" = [blankMsg] ∧
    (chatColonMessage emptyState (some "R") "R" blankMsg).2 =
      [⟨.roomExceptSender "R", "chat:message", .chatMsg blankMsg⟩] := by
  refine ⟨by decide, ?_, ?_⟩
  · simp [chatColonMessage, emptyState, upd, ltrimLast100]
  · rfl

/-- Claim C7 (amended): the `hmset` of each of `media_change`,
`playback_state`, `sync:play`, `sync:pause`, `sync:seek` and `seek` writes
`lastSync` in the same single store write as `isPlaying`/`currentTime`.
(The `media:change` handler does not: see the counterexample.) -/
theorem playback_writes_carry_lastSync (r : Room) (mt mu : String) (b : Bool)
    (t now : Nat) :
    (mediaChangeHmset mt mu now r).lastSync = now ∧
    (mediaChangeHmset mt mu now r).currentTime = 0 ∧
    (mediaChangeHmset mt mu now r).isPlaying = false ∧
    (playbackStateHmset b t now r).lastSync = now ∧
    (playbackStateHmset b t now r).isPlaying = b ∧
    (playbackStateHmset b t now r).currentTime = t ∧
    (syncPlayHmset t now r).lastSync = now ∧
    (syncPlayHmset t now r).isPlaying = true ∧
    (syncPlayHmset t now r).currentTime = t ∧
    (syncPauseHmset t now r).lastSync = now ∧
    (syncPauseHmset t now r).isPlaying = false ∧
    (syncPauseHmset t now r).currentTime = t ∧
    (syncSeekHmset t now r).lastSync = now ∧
    (syncSeekHmset t now r).currentTime = t ∧
    (seekHmset t now r).lastSync = now ∧
    (seekHmset t now r).currentTime = t := by
  simp [mediaChangeHmset, playbackStateHmset, syncPlayHmset, syncPauseHmset,
        syncSeekHmset, seekHmset]

/-- Claim C7 counterexample: the `media:change` handler writes `currentTime`
and `isPlaying` without touching `lastSync`, so an observer reads the new
playback fields next to the `lastSync` of an earlier call. -/
theorem media_colon_change_leaves_stale_lastSync :
    (mediaColonChangeHmset "youtube" "u1" c7Room).currentTime = 0 ∧
    (mediaColonChangeHmset "youtube" "u1" c7Room).isPlaying = false ∧
    c7Room.currentTime ≠ 0 ∧
    c7Room.isPlaying = true ∧
    (mediaColonChangeHmset "youtube" "u1" c7Room).lastSync = c7Room.lastSync := by
  decide

/-- Claim C8 (amended): the `sync:play`, `sync:pause` and `sync:seek`
handlers broadcast to the room excluding the sender, while the
`playback_state` and `seek` handlers broadcast through `io.to` to the whole
room, sender included. -/
theorem playback_broadcast_targets (st : ServerState) (rid : String) (u : CUser)
    (b : Bool) (t now : Nat) :
    (syncPlay st (some rid) (some u) t now).2 =
      [⟨.roomExceptSender rid, "sync:play", .syncTime t⟩] ∧
    (syncPause st (some rid) (some u) t now).2 =
      [⟨.roomExceptSender rid, "sync:pause", .syncTime t⟩] ∧
    (syncSeek st (some rid) (some u) t now).2 =
      [⟨.roomExceptSender rid, "sync:seek", .syncTime t⟩] ∧
    (playbackState st (some rid) (some u) b t now).2 =
      [⟨.roomAll rid, "playback_sync", .playbackSync b t u.name now⟩] ∧
    (seek st (some rid) (some u) t now).2 =
      [⟨.roomAll rid, "seek_sync", .seekSync t u.name now⟩] ∧
    targetIncludesSender (.roomExceptSender rid) = false ∧
    targetIncludesSender (.roomAll rid) = true := by
  simp [syncPlay, syncPause, syncSeek, playbackState, seek, targetIncludesSender]

/-- Claim C8 counterexample: an accepted `playback_state` event from a bound
participant is rebroadcast to a target that includes the sender. -/
theorem playback_state_broadcast_includes_sender :
    ((playbackState emptyState (some "RM") (some ⟨"a", "A", "v"⟩) true 42 99).2.map
      (fun e => targetIncludesSender e.target)) = [true] := by
  decide

/-- Claim C2 (amended): on the `join_room` path, a join of a room whose
membership already has `maxParticipants` members is rejected with the
room-full error, and neither the store nor the connection binding is
mutated.  (The `room:join` path has no capacity check: see the
counterexample.) -/
theorem join_room_full_rejected (st : ServerState) (croom : Option String)
    (cuser : Option CUser) (roomId : String) (user : JoinUser) (sid : String)
    (now : Nat) (room : Room)
    (h1 : roomId ≠ "") (h2 : user.id ≠ "") (h3 : user.name ≠ "")
    (hr : getRoomData st roomId = some room)
    (hc : maxParticipants ≤ scard st roomId) :
    joinRoom st croom cuser roomId user sid now =
      (st, croom, cuser, [⟨.sender, "error", .error "Room is full"⟩]) := by
  simp [joinRoom, h1, h2, h3, hr, hc]

set_option maxRecDepth 10000 in
/-- Closed instance of `join_room_full_rejected` at a 50-member room. -/
theorem join_room_full_rejected_witness :
    joinRoom fullState none none "ROOMAA" ⟨"u50", "Eve", "av"⟩ "s9" 7 =
      (fullState, none, none, [⟨.sender, "error", .error "Room is full"⟩]) :=
  join_room_full_rejected fullState none none "ROOMAA" ⟨"u50", "Eve", "av"⟩ "s9" 7
    fullRoom (by decide) (by decide) (by decide) rfl (by decide)

set_option maxRecDepth 10000 in
/-- Claim C2 counterexample: the `room:join` handler adds a 51st member to a
room already holding 50, so the join path does not uniformly enforce the
capacity limit. -/
theorem room_join_exceeds_capacity :
    scard fullState "ROOMAA" = maxParticipants ∧
    scard (roomJoin fullState none none "ROOMAA" ⟨"u50", "Eve", "", false⟩ "s9" 7).1
      "ROOMAA" = 51 := by
  constructor
  · decide
  · decide

/-- Appending to a 100-entry list and trimming to the last 100 drops the
head. -/
theorem ltrimLast100_of_full {l : List Message} (m : Message) (h : l.length = 100) :
    ltrimLast100 (l ++ [m]) = l.drop 1 ++ [m] := by
  unfold ltrimLast100
  rw [List.length_append, h, List.length_singleton]
  rw [List.drop_append_of_le_length (by omega)]

/-- Claim C5 (amended): on both user chat paths the stored history is a
100-bounded ring buffer.  After an accepted `chat_message` post, and after
any `chat:message` relay from a bound connection, the length is the minimum
of the previous length plus one and 100, and a post onto a 100-entry
history drops the oldest entry.  (System-message appends do not trim: see
the counterexample.) -/
theorem chat_message_ring_buffer (st : ServerState) (rid : String) (u : CUser)
    (text : String) (now : Nat) (mid : String) (s : String) (m : Message)
    (h1 : jsTrim text ≠ "") (h2 : text.length ≤ 500) :
    ((chatMessage st (some rid) (some u) text now mid).1.messages rid).length =
      min ((st.messages rid).length + 1) 100 ∧
    ((st.messages rid).length = 100 →
      (chatMessage st (some rid) (some u) text now mid).1.messages rid =
        (st.messages rid).drop 1 ++
          [⟨mid, "user", u.id, u.name, u.avatar, jsTrim text, now⟩]) ∧
    ((chatColonMessage st (some s) rid m).1.messages rid).length =
      min ((st.messages rid).length + 1) 100 ∧
    ((st.messages rid).length = 100 →
      (chatColonMessage st (some s) rid m).1.messages rid =
        (st.messages rid).drop 1 ++ [m]) := by
  have h2' : ¬(500 < text.length) := Nat.not_lt.mpr h2
  refine ⟨?_, ?_, ?_, ?_⟩
  · simp only [chatMessage, if_neg h1, if_neg h2', upd, if_pos rfl,
               ltrimLast100, List.length_drop, List.length_append]
    simp
    omega
  · intro h100
    simp only [chatMessage, if_neg h1, if_neg h2', upd, eq_self_iff_true, if_true]
    exact ltrimLast100_of_full _ h100
  · simp only [chatColonMessage, upd, if_pos rfl, ltrimLast100,
               List.length_drop, List.length_append]
    simp
    omega
  · intro h100
    simp only [chatColonMessage, upd, eq_self_iff_true, if_true]
    exact ltrimLast100_of_full _ h100

/-- Closed instance of `chat_message_ring_buffer` on an empty history. -/
theorem chat_message_ring_buffer_witness :
    ((chatMessage emptyState (some "R") (some ⟨"a", "A", "v"⟩) "hi" 5 "m1").1.messages
      "R").length = min (0 + 1) 100 ∧
    ((chatColonMessage emptyState (some "S") "R" someMsg).1.messages "R").length =
      min (0 + 1) 100 := by
  have h := chat_message_ring_buffer emptyState "R" ⟨"a", "A", "v"⟩ "hi" 5 "m1"
    "S" someMsg (by decide) (by decide)
  exact ⟨h.1, h.2.2.1⟩

/-- Claim C5 counterexample: the system message appended by `media_change`
is pushed without a trim, so a 100-entry history grows to 101. -/
theorem media_change_overflows_history :
    ((mediaChange st100 (some "RM") (some ⟨"a", "A", "v"⟩) "youtube" "url" 50
      "m1").1.messages "RM").length = 101 := by
  decide

/-- Claim C9 (amended): a sweep pass over a zero-member room whose id
matches the scanned key pattern deletes it exactly when the age since
creation (`Date.now() - createdAt`) exceeds the idle timeout; the time of
last activity (`lastSync`) is not consulted. -/
theorem cleanup_sweep_uses_createdAt (st : ServerState) (now : Nat)
    (rid : String) (room : Room)
    (hk : isRoomCodeKey rid = true)
    (hr : getRoomData st rid = some room)
    (he : scard st rid = 0) :
    ((cleanupSweep st now [rid]).rooms rid = none ↔
      idleTimeout < now - room.createdAt) := by
  have hsome := getRoomData_eq_some hr
  by_cases hc : idleTimeout < now - room.createdAt
  · have hd : sweepDeletes st now rid = true := by
      simp [sweepDeletes, hk, hr, he, hc]
    simp [cleanupSweep, hd, deleteRoom, upd, hc]
  · have hd : sweepDeletes st now rid = false := by
      simp [sweepDeletes, hk, hr, he, hc]
    simp [cleanupSweep, hd, hc, hsome.1]

/-- Closed instance of `cleanup_sweep_uses_createdAt`: the sweep deletes the
empty room created at time 0 when run at time 7200001. -/
theorem cleanup_sweep_uses_createdAt_witness :
    (cleanupSweep c9State 7200001 ["ABCDEF"]).rooms "ABCDEF" = none :=
  (cleanup_sweep_uses_createdAt c9State 7200001 "ABCDEF" c9Room (by decide) rfl
    (by decide)).mpr (by decide)

/-- Claim C9 counterexample: a zero-member room whose last activity
(`lastSync`, 200001 ms ago) is far more recent than the idle timeout is
nevertheless deleted by the sweep, because the sweep ages rooms by
`createdAt`. -/
theorem cleanup_sweep_ignores_lastSync :
    7200001 - c9Room.lastSync < idleTimeout ∧
    scard c9State "ABCDEF" = 0 ∧
    (cleanupSweep c9State 7200001 ["ABCDEF"]).rooms "ABCDEF" = none := by
  decide

/-- Claim C10: the participant listing keeps only member ids whose user
record exists, so `GET /api/room/:roomId` reports the filtered listing
length while the validate endpoint reports the raw membership cardinality;
a member id without a user record makes the former strictly smaller. -/
theorem listing_undercounts_membership (st : ServerState) (rid uid : String)
    (room : Room)
    (hroom : getRoomData st rid = some room)
    (h1 : uid ∈ smembers st rid)
    (h2 : lookupUser st rid uid = none) :
    getRoomInfo st rid = some (room, (getRoomParticipants st rid).length) ∧
    (validateRoom st rid).participantCount = scard st rid ∧
    (getRoomParticipants st rid).length < scard st rid ∧
    ∀ p ∈ getRoomParticipants st rid,
      ∃ v, v ∈ smembers st rid ∧ lookupUser st rid v = some p := by
  refine ⟨?_, ?_, ?_, ?_⟩
  · simp [getRoomInfo, hroom]
  · simp [validateRoom, (getRoomData_eq_some hroom).1]
  · unfold getRoomParticipants sortByJoinedAt scard
    rw [List.length_insertionSort]
    exact length_filterMap_lt_of_mem_none _ _ uid h1 h2
  · intro p hp
    unfold getRoomParticipants sortByJoinedAt at hp
    rw [List.mem_insertionSort] at hp
    rcases List.mem_filterMap.mp hp with ⟨v, hv, hlv⟩
    exact ⟨v, hv, hlv⟩

/-- Closed instance of `listing_undercounts_membership`: room RM lists one
participant while its membership set holds two ids. -/
theorem listing_undercounts_membership_witness :
    (getRoomParticipants c10State "RM").length < scard c10State "RM" :=
  (listing_undercounts_membership c10State "RM" "ghost" c10Room rfl (by decide)
    rfl).2.2.1

/-- Claim C3: when the participant holding host authority leaves a room
that keeps more than one participant, the room record gets the id of the
earliest-joined remaining participant as `hostId`, the stored `isHost` flag
of that participant becomes true, a `host_changed` broadcast naming that
participant goes to the whole room, and the `joinedAt` of the promoted
participant is minimal among the remaining listing. -/
theorem host_reelection (st : ServerState) (rid : String) (u : CUser)
    (now : Nat) (mid : String) (room : Room) (nh : UserRec)
    (hr : getRoomData st rid = some room)
    (hh : room.hostId = u.id)
    (hhead : (getRoomParticipants (leaveStep1 st rid u.id) rid).head? = some nh)
    (hlen : 1 < (getRoomParticipants (leaveStep1 st rid u.id) rid).length)
    (hne : nh.id ≠ u.id)
    (hrec : st.users rid nh.id = some nh) :
    ((handleLeaveRoom st (some rid) (some u) now mid).1.rooms rid).map Room.hostId
        = some nh.id ∧
    ((handleLeaveRoom st (some rid) (some u) now mid).1.users rid nh.id).map
        UserRec.isHost = some true ∧
    (Emit.mk (.roomAll rid) "host_changed" (.hostChanged nh.id nh.name)) ∈
        (handleLeaveRoom st (some rid) (some u) now mid).2.2.2 ∧
    ∀ q ∈ getRoomParticipants (leaveStep1 st rid u.id) rid,
        nh.joinedAt ≤ q.joinedAt := by
  have hr1 : getRoomData (leaveStep1 st rid u.id) rid = some room := hr
  have hroomssome : (leaveStep1 st rid u.id).rooms rid = some room :=
    (getRoomData_eq_some hr).1
  have hsc : ¬(scard (leaveStep1 st rid u.id) rid = 0) := by
    have h := length_getRoomParticipants_le (leaveStep1 st rid u.id) rid
    omega
  have hps : ∃ t, getRoomParticipants (leaveStep1 st rid u.id) rid = nh :: t := by
    cases hq : getRoomParticipants (leaveStep1 st rid u.id) rid with
    | nil => rw [hq] at hhead; cases hhead
    | cons a t =>
      rw [hq, List.head?_cons] at hhead
      injection hhead with h
      exact ⟨t, by rw [h]⟩
  obtain ⟨t, ht⟩ := hps
  have hmin : ∀ q ∈ getRoomParticipants (leaveStep1 st rid u.id) rid,
      nh.joinedAt ≤ q.joinedAt := by
    intro q hq
    rw [ht] at hq
    rcases List.mem_cons.mp hq with h | h
    · subst h; exact Nat.le_refl _
    · have hs := getRoomParticipants_pairwise (leaveStep1 st rid u.id) rid
      rw [ht] at hs
      exact List.rel_of_sorted_cons hs q h
  refine ⟨?_, ?_, ?_, hmin⟩
  · simp only [handleLeaveRoom, hr1, hh, hsc, ht, List.head?_cons, updRoom,
               hroomssome, upd, upd2, eq_self_iff_true, if_true, if_false,
               ite_true, ite_false, hne, hrec]
    simp [upd, Option.map]
  · have husers1 : (leaveStep1 st rid u.id).users rid nh.id = some nh := by
      simp [leaveStep1, srem, upd2, hne, hrec]
    simp only [handleLeaveRoom, hr1, hh, hsc, ht, List.head?_cons, updRoom,
               hroomssome, upd, upd2, eq_self_iff_true, if_true, if_false,
               ite_true, ite_false, hne, hrec]
    simp [husers1]
  · simp only [handleLeaveRoom, hr1, hh, hsc, ht, List.head?_cons, updRoom,
               hroomssome, upd, upd2, eq_self_iff_true, if_true, if_false,
               ite_true, ite_false, hne, hrec]
    simp

/-- Closed instance of `host_reelection`: when host `h` leaves room RM with
`b` (joined at 20) and `c` (joined at 30) remaining, the persisted host id
is `b` and the record of `b` carries `isHost = true`. -/
theorem host_reelection_witness :
    ((handleLeaveRoom c3State (some "RM") (some c3Leaver) 99 "m9").1.rooms
      "RM").map Room.hostId = some "b" ∧
    ((handleLeaveRoom c3State (some "RM") (some c3Leaver) 99 "m9").1.users "RM"
      "b").map UserRec.isHost = some true := by
  have h := host_reelection c3State "RM" c3Leaver 99 "m9" c3Room c3NewHost rfl
    rfl (by decide) (by decide) (by decide) (by decide)
  exact ⟨h.1, h.2.1⟩

end SyncStream
